import Mathlib

/-!
Shallow embedding of the iframe messaging / context-management core:
`src/iframe-context-manager.ts` (ContextManager, NavigationHelper),
the messaging library `iframe-messaging-lib` (IframeMessenger) embedded in
`src/host-iframe-manager.ts`, and the host-side modal coordination of
`HostIframeManager` (same file).

Modelling conventions:
- JavaScript objects whose keys are only read/written wholesale are modelled as
  association lists `Rec := List (String × String)` (runtime shape of a plain
  string-keyed object with opaque leaf values).
- `Partial<T>` is modelled as a structure of `Option` fields; `none` means the
  key is absent from the partial, so a JS spread `{...c, ...p}` keeps `c`'s
  field.  (A key present but explicitly `undefined` is not distinguished; no
  code path relevant to the claims produces one.)
- `Date.now()` is passed in explicitly as a `now : Nat` argument wherever the
  source calls it and the result is observable (`updatedAt`); envelope
  timestamps are observed by no claim and are fixed to 0.
- Promise settlement is recorded in explicit logs so that "resolved/rejected
  exactly once" becomes a statement about list counts.
-/

namespace IframeLib

/-- Runtime shape of a plain JS object used as an opaque record:
string keys to opaque (string-rendered) leaf values. -/
abbrev Rec := List (String × String)

/-! ## Data model of `iframe-context-manager.ts` -/

/-- One entry of `NavigationContext.breadcrumbs`. -/
structure Breadcrumb where
  label : String
  path : String
  params : Option Rec := none
deriving Repr, DecidableEq

/-- `interface NavigationContext`. -/
structure NavigationContext where
  currentRoute : String
  previousRoute : Option String := none
  params : Option Rec := none
  query : Option Rec := none
  state : Option Rec := none
  breadcrumbs : Option (List Breadcrumb) := none
deriving Repr, DecidableEq

/-- `interface IframeContext`.  The `app` field (`interface AppContext`) is
modelled by its runtime shape, a string-keyed object (`Rec`): the merge in
`updateContext` spreads only at the top level of `IframeContext`, so `app` is
only ever read and replaced wholesale here. -/
structure IframeContext where
  id : String
  route : String
  title : Option String := none
  navigation : NavigationContext
  app : Rec
  metadata : Option Rec := none
  createdAt : Nat
  updatedAt : Nat
deriving Repr, DecidableEq

/-- `Partial<IframeContext>`: `none` = key absent. -/
structure PartialContext where
  id : Option String := none
  route : Option String := none
  title : Option String := none
  navigation : Option NavigationContext := none
  app : Option Rec := none
  metadata : Option Rec := none
  createdAt : Option Nat := none
  updatedAt : Option Nat := none
deriving Repr, DecidableEq

/-- The JS spread `{...c, ...p}` at the top level of `IframeContext`:
every key present in `p` replaces the corresponding key of `c` wholesale. -/
def spreadContext (c : IframeContext) (p : PartialContext) : IframeContext where
  id := p.id.getD c.id
  route := p.route.getD c.route
  title := if p.title.isSome then p.title else c.title
  navigation := p.navigation.getD c.navigation
  app := p.app.getD c.app
  metadata := if p.metadata.isSome then p.metadata else c.metadata
  createdAt := p.createdAt.getD c.createdAt
  updatedAt := p.updatedAt.getD c.updatedAt

/-- `{...this.context, ...updates, updatedAt: Date.now()}` — the merge used by
both `updateContext` and `syncContext`; `updatedAt` is written last, so it wins
even when the incoming update carries its own `updatedAt`. -/
def mergeContext (c : IframeContext) (p : PartialContext) (now : Nat) : IframeContext :=
  { spreadContext c p with updatedAt := now }

/-- A message handed to `IframeMessenger.send` by the ContextManager layer
(type, action, and the payload sent along). -/
inductive OutMsg
  | stateUpdate (updates : PartialContext)
  | stateRequest
deriving Repr, DecidableEq

/-- Mutable state of a `ContextManager` instance: the current context, the
bounded history, and a log of the messages it handed to its messenger
(`outbox`, in send order). -/
structure CMState where
  context : IframeContext
  contextHistory : List IframeContext
  outbox : List OutMsg
deriving Repr, DecidableEq

/-- `private maxHistorySize = 10`. -/
def maxHistorySize : Nat := 10

/-- `private addToHistory()`: push a snapshot of the current context, then
`if (length > maxHistorySize) shift()` (drop the oldest). -/
def addToHistory (s : CMState) : CMState :=
  let h := s.contextHistory ++ [s.context]
  { s with contextHistory := if h.length > maxHistorySize then h.tail else h }

/-- `async updateContext(updates, notify = true)`: snapshot to history, merge
shallowly with `updatedAt := Date.now()`, and if `notify` send a
`state/update` message carrying the same partial. -/
def updateContext (s : CMState) (updates : PartialContext) (notify : Bool) (now : Nat) :
    CMState :=
  let s1 := addToHistory s
  let s2 := { s1 with context := mergeContext s1.context updates now }
  if notify then { s2 with outbox := s2.outbox ++ [OutMsg.stateUpdate updates] } else s2

/-- `async syncContext(remoteContext?)`, push path (`remoteContext` given):
merge the remote snapshot directly — no history snapshot, no notification.
The pull path merges the reply of a `state/request` with the same expression. -/
def syncContext (s : CMState) (remote : PartialContext) (now : Nat) : CMState :=
  { s with context := mergeContext s.context remote now }

/-- The handler `ContextManager.setupMessageHandlers` registers for
`(state, update)`: `(payload) => { this.updateContext(payload.data) }` —
`notify` is left at its default, which is `true`. -/
def cmStateUpdateHandler (s : CMState) (data : PartialContext) (now : Nat) : CMState :=
  updateContext s data true now

/-- The handler `HostIframeManager.setupIframeHandlers` registers for
`(state, update)` on each managed iframe's messenger (replacing the one above,
since `onAction` stores handlers keyed by `type:action` in a `Map`):
`(payload) => { iframe.contextManager.updateContext(payload.data, false) }`. -/
def hostStateUpdateHandler (s : CMState) (data : PartialContext) (now : Nat) : CMState :=
  updateContext s data false now

/-- `Partial<NavigationContext>`: `none` = key absent. -/
structure PartialNav where
  currentRoute : Option String := none
  previousRoute : Option String := none
  params : Option Rec := none
  query : Option Rec := none
  state : Option Rec := none
  breadcrumbs : Option (List Breadcrumb) := none
deriving Repr, DecidableEq

/-- The JS spread `{...this.context.navigation, ...navigation}`. -/
def spreadNav (n : NavigationContext) (p : PartialNav) : NavigationContext where
  currentRoute := p.currentRoute.getD n.currentRoute
  previousRoute := if p.previousRoute.isSome then p.previousRoute else n.previousRoute
  params := if p.params.isSome then p.params else n.params
  query := if p.query.isSome then p.query else n.query
  state := if p.state.isSome then p.state else n.state
  breadcrumbs := if p.breadcrumbs.isSome then p.breadcrumbs else n.breadcrumbs

/-- `async updateNavigation(navigation)`: spread into the current navigation,
then `updateContext({ navigation: updatedNavigation })` (default notify). -/
def updateNavigation (s : CMState) (p : PartialNav) (now : Nat) : CMState :=
  let un := spreadNav s.context.navigation p
  updateContext s { navigation := some un } true now

/-- `async addBreadcrumb(label, path, params?)`: if some breadcrumb already has
this `path` (`findIndex`, first match), `splice(existingIndex + 1)` — keep
entries `0..existingIndex` and drop the rest; otherwise push
`{label, path, params}`.  Then `updateNavigation({ breadcrumbs })`. -/
def addBreadcrumb (s : CMState) (label path : String) (params : Option Rec) (now : Nat) :
    CMState :=
  let breadcrumbs := (s.context.navigation.breadcrumbs).getD []
  let breadcrumbs2 :=
    match breadcrumbs.findIdx? (fun b => b.path = path) with
    | some i => breadcrumbs.take (i + 1)
    | none => breadcrumbs ++ [{ label := label, path := path, params := params }]
  updateNavigation s { breadcrumbs := some breadcrumbs2 } now

/-- The context built by the `ContextManager` constructor before the caller's
`initialContext` is spread in (route `/`, empty navigation, development
environment). -/
def initialContext (id : String) (now : Nat) : IframeContext where
  id := id
  route := "/"
  navigation := { currentRoute := "/" }
  app := [("environment", "development")]
  createdAt := now
  updatedAt := now

/-- A freshly constructed `ContextManager`: empty history, nothing sent. -/
def initCM (id : String) (now : Nat) : CMState where
  context := initialContext id now
  contextHistory := []
  outbox := []

/-- Apply a sequence of `updateContext` calls (each with its own partial and
clock reading); `notify` does not affect context or history. -/
def runUpdates (s : CMState) : List (PartialContext × Nat) → CMState
  | [] => s
  | (p, t) :: rest => runUpdates (updateContext s p true t) rest

/-- The contexts as they stood just before each update of the sequence —
the snapshots `addToHistory` pushes, in chronological order. -/
def priorSnapshots (s : CMState) : List (PartialContext × Nat) → List IframeContext
  | [] => []
  | (p, t) :: rest => s.context :: priorSnapshots (updateContext s p true t) rest

/-! ## Data model of `iframe-messaging-lib` (IframeMessenger) -/

/-- Opaque message payload data (`data?: any`), plus the one structured value
the library itself produces: the `{ error: 'No handler found' }` object. -/
inductive MsgData
  | noData
  | raw (s : String)
  | obj (r : Rec)
  | errObj (error : String)
deriving Repr, DecidableEq

/-- `interface MessagePayload`. -/
structure MessagePayload where
  id : String
  type : String
  action : String
  data : MsgData := .noData
  timestamp : Nat := 0
  requiresResponse : Bool := false
  responseId : Option String := none
  source : String
  targetOrigin : Option String := none
deriving Repr, DecidableEq

/-- `interface MessagingConfig` with the defaults the constructor fills in. -/
structure MessagingConfig where
  targetOrigin : String
  timeout : Nat := 5000
  debug : Bool := false
  maxRetries : Nat := 3
deriving Repr, DecidableEq

/-- How a pending request's promise was settled. -/
inductive SettleKind
  | replied (d : MsgData)
  | timedOut
  | destroyed
deriving Repr, DecidableEq

/-- A registered handler: receives the payload, returns the value `respond`
will carry back when the inbound message `requiresResponse`. -/
abbrev Handler := MessagePayload → MsgData

/-- `Map.get` on a string-keyed map modelled as an association list. -/
def mapGet (m : List (String × α)) (k : String) : Option α :=
  (m.find? (fun e => e.1 = k)).map (fun e => e.2)

/-- `Map.set`: replace the value if the key exists, else add the entry. -/
def mapSet (m : List (String × α)) (k : String) (v : α) : List (String × α) :=
  if (m.find? (fun e => e.1 = k)).isSome then
    m.map (fun e => if e.1 = k then (k, v) else e)
  else
    (k, v) :: m

/-- `Map.delete`. -/
def mapDelete (m : List (String × α)) (k : String) : List (String × α) :=
  m.filter (fun e => e.1 ≠ k)

/-- The function object `this.handleMessage.bind(this)` created in `init()`
and passed to `window.addEventListener`. -/
def boundHandleMessage : Nat := 0

/-- The method reference `this.handleMessage` passed to
`window.removeEventListener` in `destroy()` — a different function object
from the bound one above. -/
def rawHandleMessage : Nat := 1

/-- Mutable state of one `IframeMessenger`, together with the observation
logs the claims are about.

* `pending` — the keys of `pendingMessages`.  Each entry has an armed
  `setTimeout`; `handleResponse` and `destroy` call `clearTimeout` exactly when
  they delete the entry, and the timeout callback deletes its own entry when it
  runs, so "the id has an armed timer" and "the id is in `pending`" coincide.
* `outbox` — every payload handed to `postMessage`, in order.  (`postMessage`
  throws when no target window is set; whether the transmission would reach a
  window is irrelevant to the claims, which are about what the messenger emits.)
* `handlerLog` — every payload dispatched to a registered handler.
* `settleLog` — every settlement (resolve or reject) of a pending request's
  promise, as `(request id, kind)`.
* `nextId` — abstraction of `generateId()` (a time+random composite in the
  source) for reply envelopes: each call yields a fresh value. -/
structure MState where
  config : MessagingConfig
  isHost : Bool
  listeners : List Nat
  pending : List String
  handlers : List (String × Handler)
  nextId : Nat
  outbox : List MessagePayload
  handlerLog : List MessagePayload
  settleLog : List (String × SettleKind)

/-- Constructor + `init()`: fill config defaults and
`window.addEventListener('message', this.handleMessage.bind(this))`. -/
def initMessenger (cfg : MessagingConfig) (isHost : Bool) : MState where
  config := cfg
  isHost := isHost
  listeners := [boundHandleMessage]
  pending := []
  handlers := []
  nextId := 0
  outbox := []
  handlerLog := []
  settleLog := []

/-- `'host' | 'iframe'` tag from `this.isHost`. -/
def sourceTag (isHost : Bool) : String :=
  if isHost then "host" else "iframe"

/-- `respond(originalMessageId, data?)`: build a `response` envelope with
`responseId := originalMessageId` and post it. -/
def respond (st : MState) (originalMessageId : String) (data : MsgData) : MState :=
  let responsePayload : MessagePayload :=
    { id := "gen-" ++ toString st.nextId
      type := "response"
      action := "message_response"
      data := data
      timestamp := 0
      responseId := some originalMessageId
      source := sourceTag st.isHost
      targetOrigin := some st.config.targetOrigin }
  { st with nextId := st.nextId + 1, outbox := st.outbox ++ [responsePayload] }

/-- `on(type, handler)`. -/
def onType (st : MState) (type : String) (h : Handler) : MState :=
  { st with handlers := mapSet st.handlers type h }

/-- `onAction(type, action, handler)` — keyed by the string `type:action`. -/
def onAction (st : MState) (type action : String) (h : Handler) : MState :=
  { st with handlers := mapSet st.handlers (type ++ ":" ++ action) h }

/-- `off(type, action?)`. -/
def offKey (st : MState) (type : String) (action : Option String) : MState :=
  let key := match action with
    | some a => type ++ ":" ++ a
    | none => type
  { st with handlers := mapDelete st.handlers key }

/-- `sendWithResponse(payload)` after the envelope is built: arm the timeout,
`pendingMessages.set(payload.id, ...)`, and post the envelope. -/
def sendWithResponse (st : MState) (payload : MessagePayload) : MState :=
  { st with
    pending := if payload.id ∈ st.pending then st.pending else payload.id :: st.pending
    outbox := st.outbox ++ [payload] }

/-- `send(type, action, data?, requiresResponse = false)`: build the envelope
(its id comes from `generateId()`; here the caller of the step supplies it) and
either register a pending request or fire-and-forget. -/
def sendMsg (st : MState) (id type action : String) (data : MsgData)
    (requiresResponse : Bool) : MState :=
  let payload : MessagePayload :=
    { id := id
      type := type
      action := action
      data := data
      timestamp := 0
      requiresResponse := requiresResponse
      source := sourceTag st.isHost
      targetOrigin := some st.config.targetOrigin }
  if requiresResponse then
    sendWithResponse st payload
  else
    { st with outbox := st.outbox ++ [payload] }

/-- The armed timeout of a pending request elapses.  A timer is armed exactly
for the ids in `pending` (see `MState`), and its callback runs
`pendingMessages.delete(payload.id); reject(new Error('Message timeout ...'))`. -/
def fireTimeout (st : MState) (id : String) : MState :=
  if id ∈ st.pending then
    { st with
      pending := st.pending.erase id
      settleLog := st.settleLog ++ [(id, SettleKind.timedOut)] }
  else st

/-- `handleResponse(payload)`: look the pending request up by `responseId`;
if found, `clearTimeout`, delete it, and `resolve(payload.data)`; otherwise
drop the reply. -/
def handleResponse (st : MState) (payload : MessagePayload) : MState :=
  match payload.responseId with
  | some rid =>
    if rid ∈ st.pending then
      { st with
        pending := st.pending.erase rid
        settleLog := st.settleLog ++ [(rid, SettleKind.replied payload.data)] }
    else st
  | none => st

/-- `handleIncomingMessage(payload)`: try the `type:action` handler, then the
`type` handler; a found handler is invoked (logged) and, when the payload
`requiresResponse`, its return value is sent back via `respond`; with no
handler and `requiresResponse`, respond `{ error: 'No handler found' }`. -/
def handleIncomingMessage (st : MState) (payload : MessagePayload) : MState :=
  match mapGet st.handlers (payload.type ++ ":" ++ payload.action) with
  | some actionHandler =>
    let st1 := { st with handlerLog := st.handlerLog ++ [payload] }
    if payload.requiresResponse then respond st1 payload.id (actionHandler payload) else st1
  | none =>
    match mapGet st.handlers payload.type with
    | some typeHandler =>
      let st1 := { st with handlerLog := st.handlerLog ++ [payload] }
      if payload.requiresResponse then respond st1 payload.id (typeHandler payload) else st1
    | none =>
      if payload.requiresResponse then
        respond st payload.id (MsgData.errObj "No handler found")
      else st

/-- `isValidPayload(payload)`: the structural checks (id/type/action strings,
numeric timestamp) hold by typing in this embedding; the remaining runtime
check is `payload.source === 'host' || payload.source === 'iframe'`. -/
def isValidPayload (payload : MessagePayload) : Bool :=
  payload.source = "host" || payload.source = "iframe"

/-- JS truthiness of `payload.responseId` (absent or empty string ⇒ falsy). -/
def truthyId : Option String → Bool
  | some rid => rid ≠ ""
  | none => false

/-- `handleMessage(event)`: drop on origin mismatch, drop invalid payloads,
route replies to `handleResponse`, everything else to `handleIncomingMessage`. -/
def handleMessage (st : MState) (origin : String) (payload : MessagePayload) : MState :=
  if origin ≠ st.config.targetOrigin then st
  else if ¬ isValidPayload payload then st
  else if payload.type = "response" ∧ truthyId payload.responseId then
    handleResponse st payload
  else
    handleIncomingMessage st payload

/-- A `message` event arriving on the window: it reaches this messenger's
`handleMessage` only while the bound listener from `init()` is attached. -/
def onWindowMessage (st : MState) (origin : String) (payload : MessagePayload) : MState :=
  if boundHandleMessage ∈ st.listeners then handleMessage st origin payload else st

/-- `destroy()`:
`window.removeEventListener('message', this.handleMessage)` — note this passes
the raw method reference, not the bound function object `init()` registered, so
the attached listener is not removed; then clear every pending timeout, reject
every pending promise with `new Error('Messenger destroyed')`, and clear the
pending map and the handler registry. -/
def destroyMessenger (st : MState) : MState :=
  { st with
    listeners := st.listeners.filter (fun r => r ≠ rawHandleMessage)
    settleLog := st.settleLog ++ st.pending.map (fun id => (id, SettleKind.destroyed))
    pending := []
    handlers := [] }

/-! ## Event traces over one messenger -/

/-- One external event acting on a messenger: an outgoing `send`, a request
timeout elapsing, a window `message` event, or `destroy()`. -/
inductive MStep
  | send (id type action : String) (data : MsgData) (requiresResponse : Bool)
  | fire (id : String)
  | deliver (origin : String) (payload : MessagePayload)
  | destroy

/-- Apply one event. -/
def mstep (st : MState) : MStep → MState
  | .send id ty ac d rr => sendMsg st id ty ac d rr
  | .fire id => fireTimeout st id
  | .deliver origin p => onWindowMessage st origin p
  | .destroy => destroyMessenger st

/-- Run a trace of events. -/
def mrun (st : MState) : List MStep → MState
  | [] => st
  | s :: rest => mrun (mstep st s) rest

/-- The ids of the requests sent with `requiresResponse = true` along a trace. -/
def sentIds : List MStep → List String
  | [] => []
  | .send id _ _ _ true :: rest => id :: sentIds rest
  | _ :: rest => sentIds rest

/-- Number of settle events recorded for a given request id. -/
def settleCount (log : List (String × SettleKind)) (id : String) : Nat :=
  log.countP (fun e => e.1 = id)

/-- 1 if the id is currently pending, else 0. -/
def pendCount (st : MState) (id : String) : Nat :=
  if id ∈ st.pending then 1 else 0

/-- Settlements recorded for an id plus its pending indicator — the quantity
conserved by every event except the send that creates the request. -/
def sumIdx (st : MState) (id : String) : Nat :=
  settleCount st.settleLog id + pendCount st id

/-- The id-uniqueness constraint the source relies on (`generateId()` ids are
"unique enough within a channel's lifetime"): along the trace, every id sent
with `requiresResponse = true` is fresh at its send — neither currently
pending nor previously settled. -/
def FreshSends : MState → List MStep → Prop
  | _, [] => True
  | st, s :: rest =>
    (match s with
     | .send id _ _ _ true => id ∉ st.pending ∧ settleCount st.settleLog id = 0
     | _ => True) ∧ FreshSends (mstep st s) rest

/-- How many requests with this id the step sends. -/
def sendInc : MStep → String → Nat
  | .send id _ _ _ true, j => if id = j then 1 else 0
  | _, _ => 0

/-! ## Host-side modal coordination (`HostIframeManager`) -/

/-- State of the host's modal coordination across its managed iframes.

* `modalStack` — `private modalStack: string[]`, iframe ids in open order.
* `slots` — the per-iframe field `(iframe as any).modalResolve`, modelled as a
  map from iframe id to the identity of the promise whose `resolve` is stored.
* `nextPromise` — source of fresh promise identities (each `new Promise`
  executor in `handleModalOpen` creates a new one).
* `settled` — log of `resolve(data)` calls: which promise, with which value. -/
structure ModalState where
  modalStack : List String := []
  slots : List (String × Nat) := []
  nextPromise : Nat := 0
  settled : List (Nat × MsgData) := []
deriving Repr, DecidableEq

/-- `handleModalOpen(iframe, data)`: push the iframe id on the modal stack,
store the new promise's `resolve` in the single per-iframe slot (overwriting
whatever was there), and return the new promise. -/
def handleModalOpen (st : ModalState) (iframeId : String) : ModalState × Nat :=
  let pid := st.nextPromise
  ({ st with
      modalStack := st.modalStack ++ [iframeId]
      slots := mapSet st.slots iframeId pid
      nextPromise := pid + 1 }, pid)

/-- `handleModalClose(iframe, data)`: remove the first occurrence of the
iframe id from the modal stack (`indexOf` + `splice`), and if the per-iframe
slot holds a `resolve`, call it with `data` and delete the slot. -/
def handleModalClose (st : ModalState) (iframeId : String) (data : MsgData) : ModalState :=
  let st1 := { st with modalStack := st.modalStack.erase iframeId }
  match mapGet st1.slots iframeId with
  | some pid =>
    { st1 with
      settled := st1.settled ++ [(pid, data)]
      slots := mapDelete st1.slots iframeId }
  | none => st1

/-- One modal-coordination event. -/
inductive ModalStep
  | mopen (iframeId : String)
  | mclose (iframeId : String) (data : MsgData)

/-- Run a sequence of modal events. -/
def modalRun (st : ModalState) : List ModalStep → ModalState
  | [] => st
  | .mopen g :: rest => modalRun (handleModalOpen st g).1 rest
  | .mclose g d :: rest => modalRun (handleModalClose st g d) rest

/-- Every promise identity recorded anywhere in the state was created by an
earlier `handleModalOpen`, hence is below `nextPromise`. -/
def ModalInv (st : ModalState) : Prop :=
  (∀ e ∈ st.settled, e.1 < st.nextPromise) ∧ (∀ e ∈ st.slots, e.2 < st.nextPromise)

/-- A promise whose stored `resolve` has been lost: it was created earlier, it
has not been settled, and no per-iframe slot still holds it — so no later
event can ever settle it. -/
def Orphaned (st : ModalState) (p : Nat) : Prop :=
  p < st.nextPromise ∧ (∀ e ∈ st.settled, e.1 ≠ p) ∧ ∀ e ∈ st.slots, e.2 ≠ p

/-- The most recent `maxHistorySize` elements of a list. -/
def lastTen (l : List IframeContext) : List IframeContext :=
  l.drop (l.length - maxHistorySize)

/-- A concrete messenger configuration used to instantiate claims. -/
def mcfgA : MessagingConfig where
  targetOrigin := "https://host.example"

/-- A concrete well-formed request envelope requiring a response. -/
def reqA : MessagePayload where
  id := "m1"
  type := "data"
  action := "fetch"
  data := .noData
  timestamp := 0
  requiresResponse := true
  responseId := none
  source := "host"
  targetOrigin := some "https://host.example"

/-- A concrete trace: one request needing a response, then its timeout fires. -/
def trA : List MStep :=
  [MStep.send "a" "data" "request" MsgData.noData true, MStep.fire "a"]

/-- A concrete context used to instantiate claims. -/
def ctxA : IframeContext where
  id := "c1"
  route := "/"
  navigation := { currentRoute := "/" }
  app := [("environment", "development")]
  createdAt := 5
  updatedAt := 5

/-! ## Theorems -/

theorem updateContext_context (s : CMState) (p : PartialContext) (b : Bool) (now : Nat) :
    (updateContext s p b now).context = mergeContext s.context p now := by
  cases b <;> rfl

theorem updateContext_hist (s : CMState) (p : PartialContext) (b : Bool) (now : Nat) :
    (updateContext s p b now).contextHistory = (addToHistory s).contextHistory := by
  cases b <;> rfl

/-- `addToHistory` keeps the history within the bound and appends the current
context (evicting the oldest entry when full). -/
theorem addToHistory_hist (s : CMState) (h : s.contextHistory.length ≤ 10) :
    (addToHistory s).contextHistory = lastTen (s.contextHistory ++ [s.context])
    ∧ (addToHistory s).contextHistory.length ≤ 10 := by
  unfold addToHistory lastTen maxHistorySize
  simp only [List.length_append, List.length_singleton]
  rcases Nat.lt_or_ge s.contextHistory.length 10 with hlt | hge
  · rw [if_neg (by omega)]
    have : s.contextHistory.length + 1 - 10 = 0 := by omega
    simp [this]
    omega
  · have h10 : s.contextHistory.length = 10 := Nat.le_antisymm h hge
    rw [if_pos (by omega)]
    constructor
    · rw [show s.contextHistory.length + 1 - 10 = 1 by omega]
      exact (List.drop_one _).symm
    · simp [h10]

theorem hist_after_update (s : CMState) (p : PartialContext) (b : Bool) (now : Nat)
    (h : s.contextHistory.length ≤ 10) :
    (updateContext s p b now).contextHistory = lastTen (s.contextHistory ++ [s.context])
    ∧ (updateContext s p b now).contextHistory.length ≤ 10 := by
  rw [updateContext_hist]
  exact addToHistory_hist s h

/-- Trimming to the last ten absorbs under later appends. -/
theorem lastTen_append_absorb (l m : List IframeContext) :
    lastTen (lastTen l ++ m) = lastTen (l ++ m) := by
  unfold lastTen maxHistorySize
  rcases Nat.le_total l.length 10 with hle | hge
  · rw [Nat.sub_eq_zero_of_le hle, List.drop_zero]
  · have hn : l.length - 10 ≤ l.length := Nat.sub_le _ _
    rw [← List.drop_append_of_le_length hn, List.drop_drop]
    congr 1
    simp only [List.length_drop, List.length_append]
    omega

theorem priorSnapshots_length :
    ∀ (ups : List (PartialContext × Nat)) (s : CMState),
      (priorSnapshots s ups).length = ups.length := by
  intro ups
  induction ups with
  | nil => intro s; rfl
  | cons u rest ih =>
    intro s
    obtain ⟨p, t⟩ := u
    simp [priorSnapshots, ih]

/-- Running a sequence of updates leaves the history holding the most recent
ten of the snapshots taken before each update. -/
theorem runUpdates_hist :
    ∀ (ups : List (PartialContext × Nat)) (s : CMState),
      s.contextHistory.length ≤ 10 →
      (runUpdates s ups).contextHistory
        = lastTen (s.contextHistory ++ priorSnapshots s ups) := by
  intro ups
  induction ups with
  | nil =>
    intro s h
    simp [runUpdates, priorSnapshots, lastTen, maxHistorySize, Nat.sub_eq_zero_of_le h]
  | cons u rest ih =>
    intro s h
    obtain ⟨p, t⟩ := u
    show (runUpdates (updateContext s p true t) rest).contextHistory = _
    rw [ih _ (hist_after_update s p true t h).2, (hist_after_update s p true t h).1,
      lastTen_append_absorb]
    simp [priorSnapshots]

/-- C3 is false as stated: the `ContextManager`'s own `state/update` handler
calls `updateContext(payload.data)` with `notify` left at its default `true`,
so applying this peer-initiated update does send a `state/update` message back
to the peer. -/
theorem c3_counterexample :
    (cmStateUpdateHandler ⟨ctxA, [], []⟩ { route := some "/x" } 6).outbox
      = [OutMsg.stateUpdate { route := some "/x" }] := by
  decide

/-- C3 (amended): an inbound `state/update` handled by the host's per-iframe
handler is merged with `notify = false` and sends nothing back; one handled by
the `ContextManager`'s own handler is merged with the default `notify = true`
and sends exactly one `state/update` echo back to the peer. -/
theorem c3_state_update_handlers (s : CMState) (data : PartialContext) (now : Nat) :
    (hostStateUpdateHandler s data now).context = mergeContext s.context data now
    ∧ (hostStateUpdateHandler s data now).outbox = s.outbox
    ∧ (cmStateUpdateHandler s data now).context = mergeContext s.context data now
    ∧ (cmStateUpdateHandler s data now).outbox = s.outbox ++ [OutMsg.stateUpdate data] :=
  ⟨rfl, rfl, rfl, rfl⟩

/-- C4 is false as stated: a mutation whose clock reading `Date.now()` equals
the previous `updatedAt` (two updates within the same millisecond) changes the
context without strictly increasing `updatedAt`. -/
theorem c4_counterexample :
    (updateContext ⟨ctxA, [], []⟩ { route := some "/x" } false 5).context ≠ ctxA
    ∧ ¬ ctxA.updatedAt
        < (updateContext ⟨ctxA, [], []⟩ { route := some "/x" } false 5).context.updatedAt := by
  decide

/-- C4 (amended): every `updateContext` or `syncContext` merge stamps
`updatedAt` with the clock value `Date.now()` read during the call, so
`updatedAt` strictly increases across a mutation exactly when the clock has
strictly advanced past the previous `updatedAt` (and never decreases under a
non-decreasing clock); strictness is not guaranteed by the code itself. -/
theorem c4_updatedAt_follows_clock (s : CMState) (p : PartialContext) (b : Bool) (now : Nat) :
    (updateContext s p b now).context.updatedAt = now
    ∧ (syncContext s p now).context.updatedAt = now
    ∧ (s.context.updatedAt < now →
        s.context.updatedAt < (updateContext s p b now).context.updatedAt
        ∧ s.context.updatedAt < (syncContext s p now).context.updatedAt) := by
  refine ⟨?_, rfl, ?_⟩
  · cases b <;> rfl
  · intro h
    constructor
    · rw [updateContext_context]; exact h
    · exact h

theorem c4_updatedAt_follows_clock_witness :
    ctxA.updatedAt < (updateContext ⟨ctxA, [], []⟩ { route := some "/x" } true 9).context.updatedAt :=
  ((c4_updatedAt_follows_clock ⟨ctxA, [], []⟩ { route := some "/x" } true 9).2.2
    (by decide)).1

/-- C6: the merge is a top-level shallow replace: every top-level key of
`IframeContext` present in the partial — `id`, `route`, `title`,
`navigation`, `app`, `metadata`, `createdAt` — replaces the stored value with
the partial's value wholesale (nested objects such as `navigation`, `app` and
`metadata` included, so there is no deep merge), while `updatedAt` is always
stamped with the call's clock reading; in particular updating `app` to
`{theme:'dark'}` and then to `{lang:'en'}` leaves `app = {lang:'en'}` with no
trace of `theme`, and a second `navigation` partial likewise erases every
navigation field it does not itself carry. -/
theorem c6_shallow_merge :
    (∀ (c : IframeContext) (p : PartialContext) (now : Nat),
        (∀ v, p.id = some v → (mergeContext c p now).id = v)
        ∧ (∀ v, p.route = some v → (mergeContext c p now).route = v)
        ∧ (∀ v, p.title = some v → (mergeContext c p now).title = some v)
        ∧ (∀ v, p.navigation = some v → (mergeContext c p now).navigation = v)
        ∧ (∀ v, p.app = some v → (mergeContext c p now).app = v)
        ∧ (∀ v, p.metadata = some v → (mergeContext c p now).metadata = some v)
        ∧ (∀ v, p.createdAt = some v → (mergeContext c p now).createdAt = v)
        ∧ (mergeContext c p now).updatedAt = now)
    ∧ (∀ (s : CMState) (t1 t2 : Nat),
        (updateContext (updateContext s { app := some [("theme", "dark")] } true t1)
            { app := some [("lang", "en")] } true t2).context.app
          = [("lang", "en")])
    ∧ ∀ (s : CMState) (t1 t2 : Nat),
        (updateContext (updateContext s
            { navigation := some { currentRoute := "/a", previousRoute := some "/p" } }
            true t1)
          { navigation := some { currentRoute := "/b" } } true t2).context.navigation
          = { currentRoute := "/b" } := by
  refine ⟨?_, ?_, ?_⟩
  · intro c p now
    refine ⟨?_, ?_, ?_, ?_, ?_, ?_, ?_, rfl⟩ <;>
      intro v h <;> simp [mergeContext, spreadContext, h]
  · intro s t1 t2
    rfl
  · intro s t1 t2
    rfl

theorem c6_shallow_merge_witness :
    (mergeContext ctxA { app := some [("k", "v")] } 7).app = [("k", "v")]
    ∧ (mergeContext ctxA { navigation := some { currentRoute := "/n" } } 7).navigation
        = { currentRoute := "/n" } :=
  ⟨(c6_shallow_merge.1 ctxA { app := some [("k", "v")] } 7).2.2.2.2.1 [("k", "v")] rfl,
    (c6_shallow_merge.1 ctxA { navigation := some { currentRoute := "/n" } } 7).2.2.2.1
      { currentRoute := "/n" } rfl⟩

/-- C8: the context history is appended-to before every mutation and never
exceeds ten entries; after eleven sequential updates it holds exactly the ten
most recent prior snapshots, in chronological order, the oldest having been
evicted. -/
theorem c8_history_bounded_fifo :
    (∀ (s : CMState) (p : PartialContext) (b : Bool) (now : Nat),
        s.contextHistory.length ≤ 10 →
        (updateContext s p b now).contextHistory = lastTen (s.contextHistory ++ [s.context])
        ∧ (updateContext s p b now).contextHistory.length ≤ 10)
    ∧ ∀ (c0 : IframeContext) (ups : List (PartialContext × Nat)), ups.length = 11 →
        (runUpdates ⟨c0, [], []⟩ ups).contextHistory
            = (priorSnapshots ⟨c0, [], []⟩ ups).tail
        ∧ (runUpdates ⟨c0, [], []⟩ ups).contextHistory.length = 10 := by
  constructor
  · intro s p b now h
    exact hist_after_update s p b now h
  · intro c0 ups h
    have h1 := runUpdates_hist ups ⟨c0, [], []⟩ (by simp)
    have h2 : (priorSnapshots ⟨c0, [], []⟩ ups).length = 11 := by
      rw [priorSnapshots_length]; exact h
    rw [h1]
    simp only [List.nil_append]
    unfold lastTen maxHistorySize
    rw [h2]
    constructor
    · exact List.drop_one _
    · rw [List.length_drop, h2]

theorem c8_history_bounded_fifo_witness :
    (updateContext (initCM "w" 0) {} true 1).contextHistory
        = lastTen ((initCM "w" 0).contextHistory ++ [(initCM "w" 0).context])
    ∧ (updateContext (initCM "w" 0) {} true 1).contextHistory.length ≤ 10 :=
  c8_history_bounded_fifo.1 (initCM "w" 0) {} true 1 (by decide)

/-- C9: `addBreadcrumb(label, path, params)` appends `{label, path, params}`
when no breadcrumb with that `path` exists, and otherwise truncates every
breadcrumb after the first existing one with that `path` (keeping the existing
entry); in particular Home, List, Home collapses the trail to the single
breadcrumb Home. -/
theorem c9_addBreadcrumb :
    (∀ (s : CMState) (label path : String) (params : Option Rec) (now : Nat),
      (∀ b ∈ (s.context.navigation.breadcrumbs).getD [], b.path ≠ path) →
        (addBreadcrumb s label path params now).context.navigation.breadcrumbs
          = some ((s.context.navigation.breadcrumbs).getD []
              ++ [{ label := label, path := path, params := params }]))
    ∧ (∀ (s : CMState) (label path : String) (params : Option Rec) (now : Nat) (i : Nat),
      ((s.context.navigation.breadcrumbs).getD []).findIdx?
          (fun b => b.path = path) = some i →
        (addBreadcrumb s label path params now).context.navigation.breadcrumbs
          = some (((s.context.navigation.breadcrumbs).getD []).take (i + 1)))
    ∧ (addBreadcrumb (addBreadcrumb (addBreadcrumb (initCM "app" 0) "Home" "/" none 1)
          "List" "/list" none 2) "Home" "/" none 3).context.navigation.breadcrumbs
        = some [{ label := "Home", path := "/", params := none }] := by
  refine ⟨?_, ?_, ?_⟩
  · intro s label path params now h
    have hf : ((s.context.navigation.breadcrumbs).getD []).findIdx?
        (fun b => b.path = path) = none := by
      rw [List.findIdx?_eq_none_iff]
      intro x hx
      simpa using h x hx
    simp [addBreadcrumb, updateNavigation, updateContext, mergeContext, spreadContext,
      spreadNav, hf]
  · intro s label path params now i hf
    simp [addBreadcrumb, updateNavigation, updateContext, mergeContext, spreadContext,
      spreadNav, hf]
  · decide

theorem c9_addBreadcrumb_witness :
    (addBreadcrumb (initCM "w9" 0) "Home" "/" none 1).context.navigation.breadcrumbs
      = some [{ label := "Home", path := "/", params := none }] := by
  have h := c9_addBreadcrumb.1 (initCM "w9" 0) "Home" "/" none 1 (by decide)
  simpa using h

/-- C2: a window message whose actual sender origin differs from the
configured expected origin is dropped silently: the messenger state is
unchanged, so no registered handler is invoked, no pending request is settled,
and no reply is posted. -/
theorem c2_wrong_origin_dropped (st : MState) (origin : String)
    (payload : MessagePayload) (h : origin ≠ st.config.targetOrigin) :
    onWindowMessage st origin payload = st
    ∧ (onWindowMessage st origin payload).handlerLog = st.handlerLog
    ∧ (onWindowMessage st origin payload).settleLog = st.settleLog
    ∧ (onWindowMessage st origin payload).outbox = st.outbox := by
  have key : onWindowMessage st origin payload = st := by
    simp [onWindowMessage, handleMessage, h]
  exact ⟨key, by rw [key], by rw [key], by rw [key]⟩

theorem c2_wrong_origin_dropped_witness :
    onWindowMessage (initMessenger mcfgA true) "https://evil.example" reqA
      = initMessenger mcfgA true :=
  (c2_wrong_origin_dropped (initMessenger mcfgA true) "https://evil.example" reqA
    (by decide)).1

/-- C7: an inbound request that requires a response and matches neither an
exact `(type, action)` handler nor a type-only handler is answered with a reply
whose payload is the explicit `{ error: 'No handler found' }` object,
correlated to the request id (and no handler is invoked); moreover, delivered
back while the original request is still pending, any reply correlated to that
id settles the sender's pending promise. -/
theorem c7_no_handler_error_reply (st : MState) (payload : MessagePayload)
    (hna : mapGet st.handlers (payload.type ++ ":" ++ payload.action) = none)
    (hnt : mapGet st.handlers payload.type = none)
    (hrr : payload.requiresResponse = true) :
    (handleIncomingMessage st payload).outbox
      = st.outbox ++ [{
          id := "gen-" ++ toString st.nextId, type := "response",
          action := "message_response", data := MsgData.errObj "No handler found",
          timestamp := 0, requiresResponse := false, responseId := some payload.id,
          source := sourceTag st.isHost, targetOrigin := some st.config.targetOrigin }]
    ∧ (handleIncomingMessage st payload).handlerLog = st.handlerLog
    ∧ ∀ (sender : MState) (reply : MessagePayload),
        reply.responseId = some payload.id → payload.id ∈ sender.pending →
        (handleResponse sender reply).settleLog
          = sender.settleLog ++ [(payload.id, SettleKind.replied reply.data)] := by
  refine ⟨?_, ?_, ?_⟩
  · simp [handleIncomingMessage, hna, hnt, hrr, respond]
  · simp [handleIncomingMessage, hna, hnt, hrr, respond]
  · intro sender reply hrid hpend
    simp [handleResponse, hrid, hpend]

theorem c7_no_handler_error_reply_witness :
    (handleIncomingMessage (initMessenger mcfgA false) reqA).outbox
      = [{
          id := "gen-0", type := "response", action := "message_response",
          data := MsgData.errObj "No handler found", timestamp := 0,
          requiresResponse := false, responseId := some "m1",
          source := "iframe", targetOrigin := some "https://host.example" }] := by
  have h := (c7_no_handler_error_reply (initMessenger mcfgA false) reqA rfl rfl rfl).1
  simpa using h

/-- C5 (evaluation at the failing input): `destroy()` does not detach the
messenger from the transport.  `init()` attached the function object
`this.handleMessage.bind(this)`, while `destroy()` passes the distinct method
reference `this.handleMessage` to `removeEventListener`, so the listener stays
attached; a valid request envelope from the expected origin delivered after
`destroy()` is still processed, and — the handler registry having been
cleared — the destroyed messenger even posts a `{ error: 'No handler found' }`
reply to it. -/
theorem c5_destroy_does_not_detach :
    boundHandleMessage ∈ (destroyMessenger (initMessenger mcfgA false)).listeners
    ∧ (onWindowMessage (destroyMessenger (initMessenger mcfgA false))
          "https://host.example" reqA).outbox
        = [{
            id := "gen-0", type := "response", action := "message_response",
            data := MsgData.errObj "No handler found", timestamp := 0,
            requiresResponse := false, responseId := some "m1",
            source := "iframe", targetOrigin := some "https://host.example" }] := by
  constructor
  · decide
  · rfl

theorem respond_pending (st : MState) (oid : String) (d : MsgData) :
    (respond st oid d).pending = st.pending := rfl

theorem respond_settleLog (st : MState) (oid : String) (d : MsgData) :
    (respond st oid d).settleLog = st.settleLog := rfl

theorem handleIncomingMessage_pending (st : MState) (p : MessagePayload) :
    (handleIncomingMessage st p).pending = st.pending := by
  unfold handleIncomingMessage
  split
  · split <;> rfl
  · split
    · split <;> rfl
    · split <;> rfl

theorem handleIncomingMessage_settleLog (st : MState) (p : MessagePayload) :
    (handleIncomingMessage st p).settleLog = st.settleLog := by
  unfold handleIncomingMessage
  split
  · split <;> rfl
  · split
    · split <;> rfl
    · split <;> rfl

theorem settleCount_append (a b : List (String × SettleKind)) (id : String) :
    settleCount (a ++ b) id = settleCount a id + settleCount b id := by
  simp [settleCount, List.countP_append]

theorem settleCount_single (j : String) (k : SettleKind) (id : String) :
    settleCount [(j, k)] id = if j = id then 1 else 0 := by
  simp [settleCount, List.countP_cons]

theorem settleCount_destroyed (l : List String) (id : String) :
    settleCount (l.map (fun j => (j, SettleKind.destroyed))) id = l.count id := by
  induction l with
  | nil => rfl
  | cons j rest ih =>
    show settleCount ((j, SettleKind.destroyed) :: _) id = _
    unfold settleCount at *
    rw [List.countP_cons, ih, List.count_cons]
    by_cases hj : j = id
    · simp [hj]
    · simp [hj]

theorem pendCount_eq_count (st : MState) (id : String) (h : st.pending.Nodup) :
    pendCount st id = st.pending.count id := by
  unfold pendCount
  split
  · exact (List.count_eq_one_of_mem h (by assumption)).symm
  · exact (List.count_eq_zero_of_not_mem (by assumption)).symm

/-- Settling one pending request (reply or timeout) conserves the per-id sum
of settlements and pending indicator. -/
theorem sumIdx_settle (st : MState) (rid : String) (k : SettleKind) (id : String)
    (hnd : st.pending.Nodup) (hm : rid ∈ st.pending) :
    sumIdx { st with
      pending := st.pending.erase rid,
      settleLog := st.settleLog ++ [(rid, k)] } id = sumIdx st id := by
  unfold sumIdx pendCount
  simp only
  rw [settleCount_append, settleCount_single]
  by_cases e : rid = id
  · subst e
    have h1 : rid ∉ st.pending.erase rid := by
      intro hc
      exact absurd rfl ((hnd.mem_erase_iff.mp hc).1)
    rw [if_pos rfl, if_neg h1, if_pos hm]
  · have h2 : id ∈ st.pending.erase rid ↔ id ∈ st.pending := by
      rw [hnd.mem_erase_iff]
      exact and_iff_right (Ne.symm e)
    rw [if_neg e]
    by_cases hid : id ∈ st.pending
    · rw [if_pos (h2.mpr hid), if_pos hid]
    · rw [if_neg (fun hc => hid (h2.mp hc)), if_neg hid]

/-- `destroy()` conserves the per-id sum: every pending id is settled exactly
once with the destroyed kind, and the pending table is cleared. -/
theorem sumIdx_destroy (st : MState) (id : String) (hnd : st.pending.Nodup) :
    sumIdx (destroyMessenger st) id = sumIdx st id := by
  unfold sumIdx destroyMessenger
  simp only
  rw [settleCount_append, settleCount_destroyed]
  have : pendCount st id = st.pending.count id := pendCount_eq_count st id hnd
  unfold pendCount at *
  simp only [List.not_mem_nil, if_false]
  omega

/-- Every event preserves `Nodup` of the pending table. -/
theorem mstep_nodup (st : MState) (s : MStep) (h : st.pending.Nodup) :
    (mstep st s).pending.Nodup := by
  cases s with
  | send j ty ac d rr =>
    cases rr with
    | false => exact h
    | true =>
      show (sendWithResponse st _).pending.Nodup
      unfold sendWithResponse
      simp only
      split
      · exact h
      · exact List.Nodup.cons (by assumption) h
  | fire j =>
    show (fireTimeout st j).pending.Nodup
    unfold fireTimeout
    split
    · exact h.erase j
    · exact h
  | deliver origin p =>
    show (onWindowMessage st origin p).pending.Nodup
    unfold onWindowMessage handleMessage
    split
    · split
      · exact h
      · split
        · exact h
        · split
          · unfold handleResponse
            split
            · split
              · exact h.erase _
              · exact h
            · exact h
          · rw [handleIncomingMessage_pending]; exact h
    · exact h
  | destroy => exact List.nodup_nil

/-- Per-event accounting: the per-id sum grows by one exactly at the send that
registers the request (fresh by hypothesis) and is conserved by every other
event. -/
theorem mstep_acct (st : MState) (s : MStep) (id : String) (hnd : st.pending.Nodup)
    (hfresh : ∀ ty ac d, s = MStep.send id ty ac d true → id ∉ st.pending) :
    sumIdx (mstep st s) id = sumIdx st id + sendInc s id := by
  cases s with
  | send j ty ac d rr =>
    cases rr with
    | false =>
      show sumIdx { st with outbox := _ } id = sumIdx st id + sendInc _ id
      simp [sumIdx, settleCount, pendCount, sendInc]
    | true =>
      show sumIdx (sendWithResponse st _) id = _
      unfold sendWithResponse sumIdx pendCount settleCount sendInc
      simp only
      by_cases hj : j = id
      · subst hj
        have hnp : j ∉ st.pending := hfresh ty ac d rfl
        rw [if_neg hnp, if_pos (List.mem_cons_self j st.pending), if_neg hnp, if_pos rfl]
      · rw [if_neg hj]
        split
        · omega
        · have : id ∈ j :: st.pending ↔ id ∈ st.pending := by
            simp [List.mem_cons, Ne.symm hj]
          by_cases hid : id ∈ st.pending
          · rw [if_pos (this.mpr hid), if_pos hid]
          · rw [if_neg (fun hc => hid (this.mp hc)), if_neg hid]
  | fire j =>
    show sumIdx (fireTimeout st j) id = sumIdx st id + 0
    rw [Nat.add_zero]
    unfold fireTimeout
    split
    · exact sumIdx_settle st j SettleKind.timedOut id hnd (by assumption)
    · rfl
  | deliver origin p =>
    show sumIdx (onWindowMessage st origin p) id = sumIdx st id + 0
    rw [Nat.add_zero]
    unfold onWindowMessage handleMessage
    split
    · split
      · rfl
      · split
        · rfl
        · split
          · unfold handleResponse
            split
            · split
              · exact sumIdx_settle st _ _ id hnd (by assumption)
              · rfl
            · rfl
          · unfold sumIdx settleCount pendCount
            rw [handleIncomingMessage_pending, handleIncomingMessage_settleLog]
    · rfl
  | destroy =>
    show sumIdx (destroyMessenger st) id = sumIdx st id + 0
    rw [Nat.add_zero]
    exact sumIdx_destroy st id hnd

/-- Trace accounting: along a trace whose responding sends use fresh ids, the
final per-id sum equals the initial one plus the number of requests sent with
that id. -/
theorem mrun_acct :
    ∀ (tr : List MStep) (st : MState), st.pending.Nodup → FreshSends st tr →
      ∀ id, sumIdx (mrun st tr) id = sumIdx st id + (sentIds tr).count id := by
  intro tr
  induction tr with
  | nil => intro st _ _ id; simp [mrun, sentIds]
  | cons s rest ih =>
    intro st hnd hfs id
    obtain ⟨hc, hrest⟩ := hfs
    have hfresh : ∀ ty ac d, s = MStep.send id ty ac d true → id ∉ st.pending := by
      intro ty ac d he
      subst he
      exact hc.1
    have hstep := mstep_acct st s id hnd hfresh
    have h2 := ih (mstep st s) (mstep_nodup st s hnd) hrest id
    show sumIdx (mrun (mstep st s) rest) id = _
    rw [h2, hstep]
    have : (sentIds (s :: rest)).count id = sendInc s id + (sentIds rest).count id := by
      cases s with
      | send j ty ac d rr =>
        cases rr with
        | false => simp [sentIds, sendInc]
        | true =>
          simp only [sentIds, sendInc, List.count_cons]
          by_cases hj : j = id
          · simp [hj]
            omega
          · simp [hj]
      | fire j => simp [sentIds, sendInc]
      | deliver origin p => simp [sentIds, sendInc]
      | destroy => simp [sentIds, sendInc]
    rw [this]
    omega

/-- Once a request id has been registered or settled, a fresh-send trace never
sends it again. -/
theorem mrun_no_resend :
    ∀ (tr : List MStep) (st : MState), st.pending.Nodup → FreshSends st tr →
      ∀ id, 1 ≤ sumIdx st id → (sentIds tr).count id = 0 := by
  intro tr
  induction tr with
  | nil => intro st _ _ id _; rfl
  | cons s rest ih =>
    intro st hnd hfs id hsum
    obtain ⟨hc, hrest⟩ := hfs
    by_cases hsend : ∃ ty ac d, s = MStep.send id ty ac d true
    · obtain ⟨ty, ac, d, he⟩ := hsend
      subst he
      obtain ⟨hnp, hs0⟩ := hc
      have : sumIdx st id = 0 := by
        unfold sumIdx pendCount
        rw [hs0, if_neg hnp]
      omega
    · have hfresh : ∀ ty ac d, s = MStep.send id ty ac d true → id ∉ st.pending := by
        intro ty ac d he
        exact absurd ⟨ty, ac, d, he⟩ hsend
      have hstep := mstep_acct st s id hnd hfresh
      have hsum2 : 1 ≤ sumIdx (mstep st s) id := by omega
      have hrest0 := ih (mstep st s) (mstep_nodup st s hnd) hrest id hsum2
      have hcnt : (sentIds (s :: rest)).count id = (sentIds rest).count id := by
        cases s with
        | send j ty ac d rr =>
          cases rr with
          | false => simp [sentIds]
          | true =>
            have hj : j ≠ id := by
              intro he
              exact hsend ⟨ty, ac, d, by rw [he]⟩
            simp [sentIds, List.count_cons, hj]
        | fire j => simp [sentIds]
        | deliver origin p => simp [sentIds]
        | destroy => simp [sentIds]
      rw [hcnt]
      exact hrest0

/-- A fresh-send trace sends each id at most once. -/
theorem mrun_count_le_one :
    ∀ (tr : List MStep) (st : MState), st.pending.Nodup → FreshSends st tr →
      ∀ id, sumIdx st id = 0 → (sentIds tr).count id ≤ 1 := by
  intro tr
  induction tr with
  | nil => intro st _ _ id _; simp [sentIds]
  | cons s rest ih =>
    intro st hnd hfs id hsum
    obtain ⟨hc, hrest⟩ := hfs
    by_cases hsend : ∃ ty ac d, s = MStep.send id ty ac d true
    · obtain ⟨ty, ac, d, he⟩ := hsend
      subst he
      have hfresh : ∀ ty2 ac2 d2, MStep.send id ty ac d true = MStep.send id ty2 ac2 d2 true
          → id ∉ st.pending := fun _ _ _ _ => hc.1
      have hstep := mstep_acct st (MStep.send id ty ac d true) id hnd hfresh
      have h1 : sumIdx (mstep st (MStep.send id ty ac d true)) id = 1 := by
        rw [hstep, hsum]
        simp [sendInc]
      have hrest0 := mrun_no_resend rest (mstep st _)
        (mstep_nodup st _ hnd) hrest id (by omega)
      simp only [sentIds, List.count_cons, hrest0]
      simp
    · have hcnt : (sentIds (s :: rest)).count id = (sentIds rest).count id := by
        cases s with
        | send j ty ac d rr =>
          cases rr with
          | false => simp [sentIds]
          | true =>
            have hj : j ≠ id := by
              intro he
              exact hsend ⟨ty, ac, d, by rw [he]⟩
            simp [sentIds, List.count_cons, hj]
        | fire j => simp [sentIds]
        | deliver origin p => simp [sentIds]
        | destroy => simp [sentIds]
      have hfresh : ∀ ty ac d, s = MStep.send id ty ac d true → id ∉ st.pending := by
        intro ty ac d he
        exact absurd ⟨ty, ac, d, he⟩ hsend
      have hstep := mstep_acct st s id hnd hfresh
      have hs0 : sendInc s id = 0 := by
        cases s with
        | send j ty ac d rr =>
          cases rr with
          | false => rfl
          | true =>
            have hj : j ≠ id := by
              intro he
              exact hsend ⟨ty, ac, d, by rw [he]⟩
            simp [sendInc, hj]
        | fire j => rfl
        | deliver origin p => rfl
        | destroy => rfl
      rw [hcnt]
      exact ih (mstep st s) (mstep_nodup st s hnd) hrest id (by omega)

/-- C1: along any event trace from a fresh messenger whose responding sends
use fresh ids (the uniqueness the id generator is relied on for), every
request sent with `requiresResponse = true` is settled at most once; if at the
end of the trace no request is left pending (every armed timeout has fired or
been cleared), it is settled exactly once; and every settlement is by exactly
one of the three mechanisms — a matching reply, the timeout, or `destroy()`. -/
theorem c1_exactly_one_settlement (cfg : MessagingConfig) (isHost : Bool)
    (tr : List MStep) (hfresh : FreshSends (initMessenger cfg isHost) tr)
    (id : String) (hsent : id ∈ sentIds tr) :
    settleCount (mrun (initMessenger cfg isHost) tr).settleLog id ≤ 1
    ∧ ((mrun (initMessenger cfg isHost) tr).pending = [] →
        settleCount (mrun (initMessenger cfg isHost) tr).settleLog id = 1)
    ∧ ∀ e ∈ (mrun (initMessenger cfg isHost) tr).settleLog,
        (∃ d, e.2 = SettleKind.replied d) ∨ e.2 = SettleKind.timedOut
          ∨ e.2 = SettleKind.destroyed := by
  have hnd : (initMessenger cfg isHost).pending.Nodup := List.nodup_nil
  have hsum0 : sumIdx (initMessenger cfg isHost) id = 0 := rfl
  have hacct := mrun_acct tr _ hnd hfresh id
  have hle := mrun_count_le_one tr _ hnd hfresh id hsum0
  have hge : 0 < (sentIds tr).count id := List.count_pos_iff.mpr hsent
  have hcount : (sentIds tr).count id = 1 := by omega
  rw [hsum0, hcount] at hacct
  unfold sumIdx pendCount at hacct
  refine ⟨by omega, ?_, ?_⟩
  · intro hp
    rw [hp] at hacct
    simpa using hacct
  · intro e _
    rcases e with ⟨i, k⟩
    cases k with
    | replied d => exact Or.inl ⟨d, rfl⟩
    | timedOut => exact Or.inr (Or.inl rfl)
    | destroyed => exact Or.inr (Or.inr rfl)

theorem c1_exactly_one_settlement_witness :
    settleCount (mrun (initMessenger mcfgA true) trA).settleLog "a" = 1 := by
  have hfresh : FreshSends (initMessenger mcfgA true) trA :=
    ⟨⟨by decide, rfl⟩, trivial, trivial⟩
  have h := (c1_exactly_one_settlement mcfgA true trA hfresh "a" (by simp [trA, sentIds])).2.1
  exact h rfl

theorem mapGet_mapSet_self {α : Type} (m : List (String × α)) (k : String) (v : α) :
    mapGet (mapSet m k v) k = some v := by
  unfold mapSet
  by_cases h : (m.find? (fun e => e.1 = k)).isSome
  · rw [if_pos h]
    induction m with
    | nil => simp at h
    | cons e rest ih =>
      by_cases he : e.1 = k
      · simp [mapGet, he]
      · have hpe : ¬ (fun x : String × α => decide (x.1 = k)) e = true := by simp [he]
        rw [List.find?_cons_of_neg rest hpe] at h
        simp only [List.map_cons, if_neg he]
        unfold mapGet
        rw [@List.find?_cons_of_neg (String × α) (fun x => decide (x.1 = k)) e
          (List.map (fun x => if x.1 = k then (k, v) else x) rest) hpe]
        exact ih h
  · rw [if_neg h]
    simp [mapGet]

theorem mem_mapSet {α : Type} (m : List (String × α)) (k : String) (v : α)
    (e : String × α) (h : e ∈ mapSet m k v) : e ∈ m ∨ e = (k, v) := by
  unfold mapSet at h
  split at h
  · obtain ⟨x, hx, hmap⟩ := List.mem_map.mp h
    by_cases hxk : x.1 = k
    · right
      rw [← hmap, if_pos hxk]
    · left
      rw [← hmap, if_neg hxk]
      exact hx
  · rcases List.mem_cons.mp h with h2 | h2
    · right; exact h2
    · left; exact h2

theorem mem_mapDelete {α : Type} (m : List (String × α)) (k : String)
    (e : String × α) (h : e ∈ mapDelete m k) : e ∈ m ∧ e.1 ≠ k := by
  have h2 := List.mem_filter.mp h
  exact ⟨h2.1, by simpa using h2.2⟩

theorem mapGet_mem {α : Type} (m : List (String × α)) (k : String) (v : α)
    (h : mapGet m k = some v) : (k, v) ∈ m := by
  unfold mapGet at h
  cases hf : m.find? (fun e => e.1 = k) with
  | none => rw [hf] at h; simp at h
  | some e =>
    rw [hf] at h
    have hm := List.mem_of_find?_eq_some hf
    have hk := List.find?_some hf
    obtain ⟨e1, e2⟩ := e
    simp at h hk
    rw [← hk, ← h]
    exact hm

theorem orphaned_open (st : ModalState) (g : String) (p : Nat) (h : Orphaned st p) :
    Orphaned (handleModalOpen st g).1 p := by
  obtain ⟨h1, h2, h3⟩ := h
  refine ⟨by simp [handleModalOpen]; omega, h2, ?_⟩
  intro e he
  rcases mem_mapSet st.slots g st.nextPromise e he with he2 | he2
  · exact h3 e he2
  · rw [he2]
    simp only
    omega

theorem orphaned_close (st : ModalState) (g : String) (d : MsgData) (p : Nat)
    (h : Orphaned st p) : Orphaned (handleModalClose st g d) p := by
  obtain ⟨h1, h2, h3⟩ := h
  unfold handleModalClose
  simp only
  split
  · next pid hg =>
    refine ⟨h1, ?_, ?_⟩
    · intro e he
      rcases List.mem_append.mp he with he2 | he2
      · exact h2 e he2
      · have hmem : (g, pid) ∈ st.slots := mapGet_mem st.slots g pid hg
        have : pid ≠ p := h3 (g, pid) hmem
        simp only [List.mem_singleton] at he2
        rw [he2]
        exact this
    · intro e he
      exact h3 e (mem_mapDelete st.slots g e he).1
  · exact ⟨h1, h2, h3⟩

theorem orphaned_run :
    ∀ (steps : List ModalStep) (st : ModalState) (p : Nat),
      Orphaned st p → Orphaned (modalRun st steps) p := by
  intro steps
  induction steps with
  | nil => intro st p h; exact h
  | cons s rest ih =>
    intro st p h
    cases s with
    | mopen g => exact ih _ p (orphaned_open st g p h)
    | mclose g d => exact ih _ p (orphaned_close st g d p h)

/-- C10: the host keeps a single modal-resolution slot per guest.  Opening a
second modal for the same guest before the first closes returns a distinct
promise and overwrites the stored resolver; the next `ui/modal_close` settles
exactly the second open's promise with the close result, and the first open's
promise is never settled by any later sequence of opens and closes. -/
theorem c10_modal_open_overwrites (st : ModalState) (g : String) (d : MsgData)
    (hinv : ModalInv st) :
    (handleModalOpen st g).2 ≠ (handleModalOpen (handleModalOpen st g).1 g).2
    ∧ (handleModalClose (handleModalOpen (handleModalOpen st g).1 g).1 g d).settled
        = st.settled ++ [((handleModalOpen (handleModalOpen st g).1 g).2, d)]
    ∧ ∀ (rest : List ModalStep),
        ∀ e ∈ (modalRun
            (handleModalClose (handleModalOpen (handleModalOpen st g).1 g).1 g d)
            rest).settled,
          e.1 ≠ (handleModalOpen st g).2 := by
  have hget : mapGet (mapSet (mapSet st.slots g st.nextPromise) g (st.nextPromise + 1)) g
      = some (st.nextPromise + 1) := mapGet_mapSet_self _ g _
  have hclose :
      (handleModalClose (handleModalOpen (handleModalOpen st g).1 g).1 g d).settled
        = st.settled ++ [(st.nextPromise + 1, d)] := by
    unfold handleModalClose handleModalOpen
    simp only [hget]
  have hnext :
      (handleModalClose (handleModalOpen (handleModalOpen st g).1 g).1 g d).nextPromise
        = st.nextPromise + 1 + 1 := by
    unfold handleModalClose handleModalOpen
    simp only [hget]
  have hslots :
      (handleModalClose (handleModalOpen (handleModalOpen st g).1 g).1 g d).slots
        = mapDelete (mapSet (mapSet st.slots g st.nextPromise) g (st.nextPromise + 1)) g := by
    unfold handleModalClose handleModalOpen
    simp only [hget]
  refine ⟨by simp [handleModalOpen], hclose, ?_⟩
  intro rest e he
  have horph : Orphaned
      (handleModalClose (handleModalOpen (handleModalOpen st g).1 g).1 g d)
      st.nextPromise := by
    refine ⟨?_, ?_, ?_⟩
    · rw [hnext]
      omega
    · intro e2 he2
      rw [hclose] at he2
      rcases List.mem_append.mp he2 with h3 | h3
      · exact Nat.ne_of_lt (hinv.1 e2 h3)
      · simp only [List.mem_singleton] at h3
        rw [h3]
        simp
    · intro e2 he2
      rw [hslots] at he2
      obtain ⟨hin, hne⟩ := mem_mapDelete _ g e2 he2
      rcases mem_mapSet _ g _ e2 hin with h4 | h4
      · rcases mem_mapSet _ g _ e2 h4 with h5 | h5
        · exact Nat.ne_of_lt (hinv.2 e2 h5)
        · rw [h5] at hne
          exact absurd rfl hne
      · rw [h4] at hne
        exact absurd rfl hne
  exact (orphaned_run rest _ st.nextPromise horph).2.1 e he

theorem c10_modal_open_overwrites_witness :
    (handleModalClose (handleModalOpen (handleModalOpen ⟨[], [], 0, []⟩ "g1").1 "g1").1 "g1"
        (MsgData.raw "ok")).settled
      = [((handleModalOpen (handleModalOpen ⟨[], [], 0, []⟩ "g1").1 "g1").2,
          MsgData.raw "ok")] := by
  have h := (c10_modal_open_overwrites ⟨[], [], 0, []⟩ "g1" (MsgData.raw "ok")
    ⟨by simp, by simp⟩).2.1
  simpa using h

end IframeLib
